import Mathlib

/-!
Shallow embedding of the task-delegation core of the voice-backend
repository (files `simple_working_delegation.py`, `magentic_integration.py`,
`low_latency_integration.py`, `main.py`, `main_pipecat_simple.py`).

Python strings are modelled as Lean `String`; the Python operations used by
the source (`str.lower`, substring containment `kw in text`, `str.split()`)
are re-implemented below as executable Lean functions on character lists.
Machine timestamps are abstracted as `Nat` clock readings supplied as inputs;
HTTP interaction is abstracted as an `HttpOutcome` input (a response with a
status code and body, or a raised connectivity exception).
-/

namespace VoiceBackend

/-- Embedding of Python `str.lower()` (the source only lower-cases ASCII
keyword text, for which `Char.toLower` agrees with Python). -/
def lowerStr (s : String) : String :=
  String.mk (s.data.map Char.toLower)

/-- `startsW n h` is true when the character list `h` begins with `n`. -/
def startsW : List Char → List Char → Bool
  | [], _ => true
  | _ :: _, [] => false
  | a :: n, b :: h => a == b && startsW n h

/-- `hasSub n h` is true when `n` occurs contiguously inside `h`; this is the
embedding of Python's substring test `n in h`. -/
def hasSub (n : List Char) : List Char → Bool
  | [] => n.isEmpty
  | c :: h => startsW n (c :: h) || hasSub n h

/-- Embedding of the Python test `kw in text.lower()` used throughout the
source's classifiers and gate. -/
def inLower (kw text : String) : Bool :=
  hasSub kw.data (lowerStr text).data

/-- Embedding of `any(word in text.lower() for word in kws)`. -/
def containsAny (kws : List String) (text : String) : Bool :=
  kws.any (fun kw => inLower kw text)

/-- The delegation keyword list of
`SimpleWorkingDelegationProcessor.process_frame` (line 31) and of
`main_pipecat_simple.process_text_message` (line 67). -/
def delegation_keywords : List String :=
  ["create", "generate", "make", "build", "design",
   "analyze", "research", "write", "develop", "automate"]

/-- The delegation gate: `needs_delegation = any(keyword in text.lower() for
keyword in delegation_keywords)` (simple_working_delegation.py line 36,
main_pipecat_simple.py line 72). -/
def needsDelegation (text : String) : Bool :=
  containsAny delegation_keywords text

/-- The task categories produced by the source's classifiers. -/
inductive TaskCategory where
  | creation
  | analysis
  | writing
  | design
  | automation
  | general
deriving DecidableEq, Repr

/-- Creation keywords of `_classify_task` (simple_working_delegation.py line 64). -/
def creationKws : List String := ["create", "generate", "make", "build"]

/-- Analysis keywords of `_classify_task` (line 66). -/
def analysisKws : List String := ["analyze", "research", "study"]

/-- Writing keywords of `_classify_task` (line 68). -/
def writingKws : List String := ["write", "draft", "compose"]

/-- Design keywords of `_classify_task` (line 70). -/
def designKws : List String := ["design", "plan", "architect"]

/-- Automation keywords of `_classify_task` (line 72). -/
def automationKws : List String := ["automate", "script", "code"]

/-- Embedding of `SimpleWorkingDelegationProcessor._classify_task`
(simple_working_delegation.py lines 60-75): an if/elif chain of substring
tests over the lower-cased text, in the order
creation, analysis, writing, design, automation, general. -/
def classifyTask (text : String) : TaskCategory :=
  if containsAny creationKws text then .creation
  else if containsAny analysisKws text then .analysis
  else if containsAny writingKws text then .writing
  else if containsAny designKws text then .design
  else if containsAny automationKws text then .automation
  else .general

/-- Analysis keywords of `classify_task_type` (magentic_integration.py
line 220), which additionally contain "investigate". -/
def analysisKwsMI : List String := ["analyze", "research", "study", "investigate"]

/-- Embedding of `classify_task_type` (magentic_integration.py lines 213-229):
identical chain to `_classify_task` except for the analysis keyword set. -/
def classifyTaskType (text : String) : TaskCategory :=
  if containsAny creationKws text then .creation
  else if containsAny analysisKwsMI text then .analysis
  else if containsAny writingKws text then .writing
  else if containsAny designKws text then .design
  else if containsAny automationKws text then .automation
  else .general

/-- Priority levels returned by `determine_task_priority`. -/
inductive TaskPriority where
  | high
  | normal
  | low
deriving DecidableEq, Repr

/-- High-priority keywords of `determine_task_priority`
(magentic_integration.py line 236). -/
def highKws : List String := ["urgent", "asap", "immediately", "critical"]

/-- Low-priority keywords of `determine_task_priority` (line 238). -/
def lowKws : List String := ["when possible", "eventually", "sometime"]

/-- Embedding of `determine_task_priority` (magentic_integration.py
lines 231-241). -/
def determineTaskPriority (text : String) : TaskPriority :=
  if containsAny highKws text then .high
  else if containsAny lowKws text then .low
  else .normal

/-- Helper for `splitWs`: `acc` holds the characters of the word currently
being read, in reverse. -/
def splitWsAux : List Char → List Char → List (List Char)
  | [], acc => if acc.isEmpty then [] else [acc.reverse]
  | c :: rest, acc =>
    if c.isWhitespace then
      if acc.isEmpty then splitWsAux rest []
      else acc.reverse :: splitWsAux rest []
    else splitWsAux rest (c :: acc)

/-- Embedding of Python `str.split()` with no argument: split on runs of
whitespace, discarding empty pieces. -/
def splitWs (l : List Char) : List (List Char) :=
  splitWsAux l []

/-- Embedding of `description.lower().split()` in `classify_task_fast`
(low_latency_integration.py line 116). -/
def wordsOf (text : String) : List (List Char) :=
  splitWs (lowerStr text).data

/-- Creation keyword set of `task_patterns` (low_latency_integration.py
line 63); note it contains "design" and there is no design category. -/
def fastCreationKws : List String := ["create", "generate", "make", "build", "design"]

/-- Analysis keyword set of `task_patterns` (line 64). -/
def fastAnalysisKws : List String := ["analyze", "research", "study", "investigate", "examine"]

/-- Writing keyword set of `task_patterns` (line 65). -/
def fastWritingKws : List String := ["write", "draft", "compose", "document"]

/-- Automation keyword set of `task_patterns` (line 66). -/
def fastAutomationKws : List String := ["automate", "script", "code", "program"]

/-- Embedding of `desc_words & keywords` being non-empty: some whitespace-split
word of the text is literally one of the keywords. -/
def anyCommon (ws : List (List Char)) (kws : List String) : Bool :=
  kws.any (fun kw => ws.contains kw.data)

/-- Embedding of `classify_task_fast` (low_latency_integration.py
lines 114-122): iterate over `task_patterns` in insertion order (creation,
analysis, writing, automation), skipping `general`, and return the first
category whose keyword set meets the word set, else `general`. -/
def classifyTaskFast (text : String) : TaskCategory :=
  let ws := wordsOf text
  if anyCommon ws fastCreationKws then .creation
  else if anyCommon ws fastAnalysisKws then .analysis
  else if anyCommon ws fastWritingKws then .writing
  else if anyCommon ws fastAutomationKws then .automation
  else .general

/-- Fuel-driven decimal digit rendering; `fuel` bounds the recursion depth so
that the definition is structural and kernel-reducible. -/
def natChars (fuel n : Nat) : List Char :=
  match fuel with
  | 0 => []
  | fuel + 1 =>
    if n < 10 then [Nat.digitChar n]
    else natChars fuel (n / 10) ++ [Nat.digitChar (n % 10)]

/-- Embedding of Python `str` on a non-negative integer (used by f-string
interpolation of counters and timestamps in the task-id templates). -/
def natStr (n : Nat) : String :=
  String.mk (natChars (n + 1) n)

/-- Abstract outcome of one outbound HTTP call: either a response with a
status code and body, or a raised connectivity exception (timeout, refused
connection, DNS failure, ...). -/
inductive HttpOutcome where
  | resp (status : Nat) (body : String)
  | exn (msg : String)
deriving DecidableEq, Repr

/-- Embedding of the `TaskRequest` dataclass (magentic_integration.py
lines 16-30), restricted to the fields the dispatch logic reads. -/
structure TaskRequest where
  task_id : String
  task_type : String
  description : String
deriving DecidableEq, Repr

/-- Embedding of the `TaskResponse` dataclass (magentic_integration.py
lines 32-43), without the wall-clock timestamp field. -/
structure TaskResponse where
  task_id : String
  status : String
  result : Option String := none
  error : Option String := none
deriving DecidableEq, Repr

/-- The `accepted`/"queued" fallback response produced by the exception
handler of `_direct_communication` (magentic_integration.py lines 134-143). -/
def queuedFallback (url : String) (req : TaskRequest) : TaskResponse :=
  { task_id := req.task_id
    status := "accepted"
    result := some ("Task '" ++ req.description ++ "' has been queued for the Magentic-UI team. "
      ++ "Please check the main interface at " ++ url ++ " for progress updates.") }

/-- Embedding of `MagenticUIIntegration._direct_communication`
(magentic_integration.py lines 103-143): on a response with status code
exactly 200 it returns an `accepted` response with a synthesized "assigned"
result text; on any other status code it raises, and that exception -- like
any connectivity exception -- is caught by the surrounding handler, which
returns the `accepted` response with the "queued" fallback result text. -/
def directCommunication (url : String) (req : TaskRequest) (o : HttpOutcome) : TaskResponse :=
  match o with
  | .resp status _ =>
    if status = 200 then
      { task_id := req.task_id
        status := "accepted"
        result := some ("Task '" ++ req.description ++ "' has been assigned to the Magentic-UI team. "
          ++ "The team will work on this " ++ req.task_type ++ " task and provide results "
          ++ "through the main interface at " ++ url) }
    else queuedFallback url req
  | .exn _ => queuedFallback url req

/-- The mutable state of `MagenticUIIntegration`: the `active_tasks` and
`task_results` dictionaries, modelled as association lists where dictionary
assignment prepends and lookup takes the most recent binding. -/
structure IntegState where
  active_tasks : List (String × TaskRequest) := []
  task_results : List (String × TaskResponse) := []
deriving Repr

/-- Embedding of `MagenticUIIntegration.delegate_task` (magentic_integration.py
lines 70-101): record the request in `active_tasks`, perform the outbound
call through `_direct_communication` (total in the embedding because it
catches every transport fault itself), record the response in `task_results`
and return it. -/
def delegateTask (url : String) (s : IntegState) (req : TaskRequest) (o : HttpOutcome) :
    IntegState × TaskResponse :=
  let r := directCommunication url req o
  ({ active_tasks := (req.task_id, req) :: s.active_tasks
     task_results := (req.task_id, r) :: s.task_results }, r)

/-- Embedding of `MagenticUIIntegration.get_task_status` (lines 176-178):
`self.task_results.get(task_id)`. -/
def getTaskStatus (s : IntegState) (id : String) : Option TaskResponse :=
  s.task_results.lookup id

/-- Embedding of `UltraLowLatencyIntegration._fast_health_check`
(low_latency_integration.py lines 170-181): a HEAD request succeeds when the
response status is below 500; any exception yields `false`. -/
def fastHealthCheck : HttpOutcome → Bool
  | .resp st _ => st < 500
  | .exn _ => false

/-- Embedding of the `FastTaskResponse` dataclass (low_latency_integration.py
lines 33-43), without the wall-clock timestamp field. -/
structure FastTaskResponse where
  task_id : String
  status : String
  result : String
deriving DecidableEq, Repr

/-- The mutable dictionaries of `UltraLowLatencyIntegration`. -/
structure FastState where
  active_tasks : List (String × TaskRequest) := []
  task_results : List (String × FastTaskResponse) := []
deriving Repr

/-- Embedding of `UltraLowLatencyIntegration.delegate_task_fast`
(low_latency_integration.py lines 124-168): store the request, run the
health check, and record status `accepted` when it passes and `queued` when
it does not; the `failed` branch is reachable only through an exception
raised inside the `try` body itself, which the embedded operations cannot
raise. -/
def delegateTaskFast (s : FastState) (req : TaskRequest) (o : HttpOutcome) :
    FastState × FastTaskResponse :=
  let r :=
    if fastHealthCheck o then
      { task_id := req.task_id
        status := "accepted"
        result := "Task '" ++ req.description ++ "' assigned to " ++ req.task_type
          ++ " team via ultra-fast Docker network" : FastTaskResponse }
    else
      { task_id := req.task_id
        status := "queued"
        result := "Task '" ++ req.description ++ "' queued for " ++ req.task_type ++ " team" }
  ({ active_tasks := (req.task_id, req) :: s.active_tasks
     task_results := (req.task_id, r) :: s.task_results }, r)

/-- Task identifier of `main.py` `delegate_to_autogen` (line 160) and of
`main_pipecat_simple.py` `delegate_to_autogen` (line 112):
`f"task_{datetime.now().timestamp()}"`, derived from the clock reading
alone, with no sequence counter. -/
def mkMainTaskId (t : Nat) : String :=
  "task_" ++ natStr t

/-- Task identifier of `SimpleWorkingDelegationProcessor.process_frame`
(simple_working_delegation.py line 44):
`f"task_{self.delegation_count}_{int(time.time())}"`, combining the
just-incremented sequence counter with the clock reading. -/
def mkSimpleTaskId (count t : Nat) : String :=
  "task_" ++ natStr count ++ "_" ++ natStr t

/-- One delegated dispatch of `SimpleWorkingDelegationProcessor`: increment
`delegation_count` and generate the task id from the new counter value and
the dispatch's clock reading. -/
def simpleDispatchStep (s : Nat × List String) (t : Nat) : Nat × List String :=
  (s.1 + 1, s.2 ++ [mkSimpleTaskId (s.1 + 1) t])

/-- A run of delegated dispatches of `SimpleWorkingDelegationProcessor`
within one process lifetime, given the clock reading observed at each
dispatch; returns the final counter and all generated task ids in order. -/
def simpleRun (s : Nat × List String) (ts : List Nat) : Nat × List String :=
  ts.foldl simpleDispatchStep s

/-- The task ids generated by a run of `main.py delegate_to_autogen`
dispatches, given the clock reading observed at each dispatch. -/
def mainRunIds (ts : List Nat) : List String :=
  ts.map mkMainTaskId

/-- The ledger entry stored by `delegate_to_autogen` in
`main_pipecat_simple.py` (lines 113-117). -/
structure AutogenTask where
  description : String
  status : String
deriving DecidableEq, Repr

/-- The `active_tasks` dictionary of `main_pipecat_simple.py`'s backend. -/
structure SimpleBackendState where
  active_tasks : List (String × AutogenTask) := []
deriving Repr

/-- Embedding of `main_pipecat_simple.py` `delegate_to_autogen`
(lines 99-122): POST to the AutoGen endpoint; if the call returns any
response at all (no status check is performed), generate
`task_<timestamp>`, register the task as `delegated` and return the id;
if the call raises, return the literal string
"error_connecting_to_team" and register nothing. -/
def delegateToAutogen (s : SimpleBackendState) (msg : String) (o : HttpOutcome) (t : Nat) :
    SimpleBackendState × String :=
  match o with
  | .resp _ _ =>
    let id := mkMainTaskId t
    ({ active_tasks := (id, { description := msg, status := "delegated" }) :: s.active_tasks }, id)
  | .exn _ => (s, "error_connecting_to_team")

/-- The reply record produced by `process_text_message`
(`main_pipecat_simple.py` lines 91-97), without the wall-clock timestamp and
the static `pipecat_enabled` field. -/
structure TurnResult where
  content : String
  needs_delegation : Bool
deriving DecidableEq, Repr

/-- Embedding of `main_pipecat_simple.py` `process_text_message`
(lines 63-97): evaluate the delegation gate on the message; when it fires,
delegate to AutoGen and reply with the task id; otherwise reply with the
generic greeting that embeds the message (all three non-delegation branches
of the source produce this same greeting). -/
def processTextMessage (s : SimpleBackendState) (msg : String) (o : HttpOutcome) (t : Nat) :
    SimpleBackendState × TurnResult :=
  if needsDelegation msg then
    let (s', id) := delegateToAutogen s msg o t
    (s', { content := "I've assigned '" ++ msg ++ "' to your AutoGen team. Task ID: " ++ id
           needs_delegation := true })
  else
    (s, { content := "Hello! You said: " ++ msg ++ ". How can I help you today?"
          needs_delegation := false })

/-- An inbound WebSocket message as read by `main.py`'s endpoint
(lines 282-283): a type tag and a content string. -/
structure WsData where
  msgType : String
  content : String
deriving DecidableEq, Repr

/-- The reply sent back over the WebSocket, reduced to its type tag and
content (the wall-clock timestamp field is dropped). -/
structure WsResult where
  rtype : String
  content : String
deriving DecidableEq, Repr

/-- Embedding of the dispatch on `message_type` inside `main.py`'s
`websocket_endpoint` loop (lines 285-295). The core pipeline
(`backend.process_message`, which runs the LLM, the gate and the dispatcher
and may mutate the task ledger) is abstracted as the function argument
`core`, taking the content, the `is_voice` flag and the backend state. -/
def websocketStep {St : Type} (core : String → Bool → St → St × WsResult)
    (s : St) (d : WsData) : St × WsResult :=
  if d.msgType == "voice" then core d.content true s
  else if d.msgType == "text" then core d.content false s
  else if d.msgType == "ping" then (s, { rtype := "pong", content := "" })
  else (s, { rtype := "error", content := "Unknown message type" })

theorem startsW_self_append (w t : List Char) : startsW w (w ++ t) = true := by
  induction w with
  | nil => rfl
  | cons a w ih => simp [startsW, ih]

theorem hasSub_of_startsW {n h : List Char} (hs : startsW n h = true) : hasSub n h = true := by
  cases h with
  | nil =>
    cases n with
    | nil => rfl
    | cons a n => simp [startsW] at hs
  | cons c t => simp [hasSub, hs]

theorem hasSub_append_left {n t : List Char} (x : List Char) (h : hasSub n t = true) :
    hasSub n (x ++ t) = true := by
  induction x with
  | nil => simpa using h
  | cons c x ih =>
    show (startsW n (c :: (x ++ t)) || hasSub n (x ++ t)) = true
    simp [ih]

theorem hasSub_self_append (w t : List Char) : hasSub w (w ++ t) = true :=
  hasSub_of_startsW (startsW_self_append w t)

theorem hasSub_refl (w : List Char) : hasSub w w = true := by
  simpa using hasSub_self_append w []

theorem mem_of_startsW {n h : List Char} (hs : startsW n h = true) : ∀ c ∈ n, c ∈ h := by
  induction n generalizing h with
  | nil => intro c hc; cases hc
  | cons a n ih =>
    cases h with
    | nil => simp [startsW] at hs
    | cons b t =>
      simp only [startsW, Bool.and_eq_true, beq_iff_eq] at hs
      intro c hc
      rcases List.mem_cons.mp hc with rfl | hc
      · rw [hs.1]; exact List.mem_cons_self b t
      · exact List.mem_cons_of_mem _ (ih hs.2 c hc)

theorem mem_of_hasSub {n h : List Char} (hs : hasSub n h = true) : ∀ c ∈ n, c ∈ h := by
  induction h with
  | nil =>
    intro c hc
    cases n with
    | nil => cases hc
    | cons a n => simp [hasSub, List.isEmpty] at hs
  | cons b t ih =>
    simp only [hasSub, Bool.or_eq_true] at hs
    rcases hs with hs | hs
    · exact mem_of_startsW hs
    · intro c hc; exact List.mem_cons_of_mem _ (ih hs c hc)

theorem toLower_of_whitespace {c : Char} (h : c.isWhitespace = true) : c.toLower = c := by
  simp only [Char.isWhitespace, Bool.or_eq_true, decide_eq_true_eq] at h
  rcases h with ((rfl | rfl) | rfl) | rfl <;> decide

theorem inLower_eq_false_of_ws {text kw : String}
    (hw : ∀ c ∈ text.data, c.isWhitespace = true)
    (hk : ∃ c ∈ kw.data, c.isWhitespace = false) : inLower kw text = false := by
  rcases hk with ⟨c0, hc0, hcw⟩
  by_contra h
  rw [Bool.not_eq_false] at h
  have hmem := mem_of_hasSub h c0 hc0
  have : (lowerStr text).data = text.data.map Char.toLower := rfl
  rw [this, List.mem_map] at hmem
  rcases hmem with ⟨c, hc, hlc⟩
  rw [toLower_of_whitespace (hw c hc)] at hlc
  rw [← hlc, hw c hc] at hcw
  cases hcw

theorem containsAny_eq_false_of_ws {text : String} (kws : List String)
    (hw : ∀ c ∈ text.data, c.isWhitespace = true)
    (hk : ∀ kw ∈ kws, ∃ c ∈ kw.data, c.isWhitespace = false) :
    containsAny kws text = false := by
  rw [containsAny, List.any_eq_false]
  intro kw hkw
  rw [inLower_eq_false_of_ws hw (hk kw hkw)]
  exact Bool.false_ne_true

theorem hasSub_of_mem_splitWsAux :
    ∀ (l acc w : List Char), w ∈ splitWsAux l acc → hasSub w (acc.reverse ++ l) = true := by
  intro l
  induction l with
  | nil =>
    intro acc w hw
    rw [splitWsAux] at hw
    by_cases he : acc.isEmpty
    · rw [if_pos he] at hw; cases hw
    · rw [if_neg he] at hw
      rcases List.mem_singleton.mp hw with rfl
      simpa using hasSub_refl acc.reverse
  | cons c rest ih =>
    intro acc w hw
    rw [splitWsAux] at hw
    by_cases hws : c.isWhitespace
    · rw [if_pos hws] at hw
      by_cases he : acc.isEmpty
      · rw [if_pos he] at hw
        have hr := ih [] w hw
        have : hasSub w (c :: rest) = true := hasSub_append_left [c] (by simpa using hr)
        exact hasSub_append_left acc.reverse this
      · rw [if_neg he] at hw
        rcases List.mem_cons.mp hw with rfl | hw
        · exact hasSub_self_append _ _
        · have hr := ih [] w hw
          have : hasSub w (c :: rest) = true := hasSub_append_left [c] (by simpa using hr)
          exact hasSub_append_left acc.reverse this
    · rw [if_neg hws] at hw
      have hr := ih (c :: acc) w hw
      rw [List.reverse_cons, List.append_assoc] at hr
      simpa using hr

theorem hasSub_of_mem_splitWs {w l : List Char} (h : w ∈ splitWs l) : hasSub w l = true := by
  simpa using hasSub_of_mem_splitWsAux l [] w h

/-- Decimal value of a digit character list (left fold, most significant
digit first); used only to invert `natChars`. -/
def digitsVal (l : List Char) : Nat :=
  l.foldl (fun acc c => acc * 10 + (c.toNat - 48)) 0

theorem digitsVal_append (l : List Char) (c : Char) :
    digitsVal (l ++ [c]) = digitsVal l * 10 + (c.toNat - 48) := by
  simp [digitsVal, List.foldl_append]

theorem digitsVal_natChars : ∀ f n, n < 10 ^ f → digitsVal (natChars f n) = n := by
  intro f
  induction f with
  | zero =>
    intro n hn
    have : n = 0 := by simpa using hn
    subst this; rfl
  | succ f ih =>
    intro n hn
    rw [natChars]
    by_cases h10 : n < 10
    · rw [if_pos h10]
      have hv : ∀ d, d < 10 → (Nat.digitChar d).toNat - 48 = d := by decide
      simp [digitsVal, hv n h10]
    · rw [if_neg h10, digitsVal_append]
      have hdiv : n / 10 < 10 ^ f := by
        have hlt : n < 10 ^ f * 10 := by
          calc n < 10 ^ (f + 1) := hn
          _ = 10 ^ f * 10 := pow_succ 10 f
        exact Nat.div_lt_of_lt_mul (by omega)
      have hv : ∀ d, d < 10 → (Nat.digitChar d).toNat - 48 = d := by decide
      rw [ih _ hdiv, hv _ (Nat.mod_lt _ (by norm_num))]
      have := Nat.div_add_mod n 10
      omega

theorem natStr_inj {a b : Nat} (h : natStr a = natStr b) : a = b := by
  have hdata : natChars (a + 1) a = natChars (b + 1) b := congrArg String.data h
  have hpa : a < 10 ^ (a + 1) :=
    lt_of_lt_of_le (Nat.lt_pow_self (by norm_num) a)
      (Nat.pow_le_pow_right (by norm_num) (Nat.le_succ a))
  have hpb : b < 10 ^ (b + 1) :=
    lt_of_lt_of_le (Nat.lt_pow_self (by norm_num) b)
      (Nat.pow_le_pow_right (by norm_num) (Nat.le_succ b))
  have ha := digitsVal_natChars (a + 1) a hpa
  have hb := digitsVal_natChars (b + 1) b hpb
  rw [hdata, hb] at ha
  exact ha.symm

theorem natChars_ne_underscore : ∀ f n, ∀ c ∈ natChars f n, c ≠ '_' := by
  intro f
  induction f with
  | zero => intro n c hc; cases hc
  | succ f ih =>
    intro n c hc
    rw [natChars] at hc
    have hd : ∀ d, d < 10 → Nat.digitChar d ≠ '_' := by decide
    by_cases h10 : n < 10
    · rw [if_pos h10] at hc
      rcases List.mem_singleton.mp hc with rfl
      exact hd n h10
    · rw [if_neg h10] at hc
      rcases List.mem_append.mp hc with hc | hc
      · exact ih _ c hc
      · rcases List.mem_singleton.mp hc with rfl
        exact hd _ (Nat.mod_lt _ (by norm_num))

theorem natStr_ne_underscore (n : Nat) : ∀ c ∈ (natStr n).data, c ≠ '_' :=
  natChars_ne_underscore (n + 1) n

theorem underscore_split :
    ∀ (A B A' B' : List Char), (∀ c ∈ A, c ≠ '_') → (∀ c ∈ A', c ≠ '_') →
      A ++ '_' :: B = A' ++ '_' :: B' → A = A' ∧ B = B' := by
  intro A
  induction A with
  | nil =>
    intro B A' B' _ hA' h
    cases A' with
    | nil => simpa using h
    | cons a A' =>
      simp only [List.nil_append, List.cons_append, List.cons.injEq] at h
      exact absurd h.1.symm (hA' a (List.mem_cons_self a A'))
  | cons a A ih =>
    intro B A' B' hA hA' h
    cases A' with
    | nil =>
      simp only [List.cons_append, List.nil_append, List.cons.injEq] at h
      exact absurd h.1 (hA a (List.mem_cons_self a A))
    | cons a' A' =>
      simp only [List.cons_append, List.cons.injEq] at h
      obtain ⟨rfl, h⟩ := h
      have hr := ih B A' B' (fun c hc => hA c (List.mem_cons_of_mem _ hc))
        (fun c hc => hA' c (List.mem_cons_of_mem _ hc)) h
      exact ⟨by rw [hr.1], hr.2⟩

theorem mkSimpleTaskId_data (c t : Nat) :
    (mkSimpleTaskId c t).data =
      "task_".data ++ ((natStr c).data ++ '_' :: (natStr t).data) := by
  show ("task_".data ++ (natStr c).data) ++ "_".data ++ (natStr t).data
      = "task_".data ++ ((natStr c).data ++ '_' :: (natStr t).data)
  simp [List.append_assoc]

theorem mkSimpleTaskId_counter_inj {c₁ c₂ t₁ t₂ : Nat}
    (h : mkSimpleTaskId c₁ t₁ = mkSimpleTaskId c₂ t₂) : c₁ = c₂ := by
  have hdata := congrArg String.data h
  rw [mkSimpleTaskId_data, mkSimpleTaskId_data] at hdata
  have h2 := List.append_cancel_left hdata
  have hsplit := underscore_split (natStr c₁).data (natStr t₁).data
    (natStr c₂).data (natStr t₂).data (natStr_ne_underscore c₁) (natStr_ne_underscore c₂) h2
  exact natStr_inj (congrArg String.mk hsplit.1)

theorem mkMainTaskId_inj {t₁ t₂ : Nat} (h : mkMainTaskId t₁ = mkMainTaskId t₂) : t₁ = t₂ := by
  have hdata : "task_".data ++ (natStr t₁).data = "task_".data ++ (natStr t₂).data :=
    congrArg String.data h
  exact natStr_inj (congrArg String.mk (List.append_cancel_left hdata))

theorem simpleRun_nodup_aux :
    ∀ (ts : List Nat) (c : Nat) (ids : List String),
      ids.Nodup → (∀ s ∈ ids, ∃ c' t', c' ≤ c ∧ s = mkSimpleTaskId c' t') →
      (simpleRun (c, ids) ts).2.Nodup ∧
        ∀ s ∈ (simpleRun (c, ids) ts).2,
          ∃ c' t', c' ≤ (simpleRun (c, ids) ts).1 ∧ s = mkSimpleTaskId c' t' := by
  intro ts
  induction ts with
  | nil => intro c ids h1 h2; exact ⟨h1, h2⟩
  | cons t ts ih =>
    intro c ids h1 h2
    have hnew : mkSimpleTaskId (c + 1) t ∉ ids := by
      intro hmem
      rcases h2 _ hmem with ⟨c', t', hc, heq⟩
      have := mkSimpleTaskId_counter_inj heq
      omega
    have h1' : (ids ++ [mkSimpleTaskId (c + 1) t]).Nodup := by
      rw [List.nodup_append]
      refine ⟨h1, List.nodup_singleton _, ?_⟩
      intro a ha hb
      rcases List.mem_singleton.mp hb with rfl
      exact hnew ha
    have h2' : ∀ s ∈ ids ++ [mkSimpleTaskId (c + 1) t],
        ∃ c' t', c' ≤ c + 1 ∧ s = mkSimpleTaskId c' t' := by
      intro s hs
      rcases List.mem_append.mp hs with hs | hs
      · rcases h2 s hs with ⟨c', t', hc, heq⟩; exact ⟨c', t', by omega, heq⟩
      · rcases List.mem_singleton.mp hs with rfl; exact ⟨c + 1, t, le_refl _, rfl⟩
    exact ih (c + 1) _ h1' h2'

/-- The union of the non-general category keyword sets of `_classify_task`. -/
def categoryUnionKws : List String :=
  creationKws ++ analysisKws ++ writingKws ++ designKws ++ automationKws

theorem containsAny_append (a b : List String) (text : String) :
    containsAny (a ++ b) text = (containsAny a text || containsAny b text) := by
  simp [containsAny, List.any_append]

theorem containsAny_of_mem {kw : String} {kws : List String} {text : String}
    (h1 : kw ∈ kws) (h2 : inLower kw text = true) : containsAny kws text = true := by
  rw [containsAny, List.any_eq_true]
  exact ⟨kw, h1, h2⟩

/-- C1, counterexample: the claim that the gate fires iff the text contains a
keyword from the union of the non-general category keyword sets is false at
the concrete utterance "develop": the gate fires on it (the delegation list
contains "develop"), yet it contains no keyword of any category set, so the
classifier puts it in `general`. -/
theorem c1_counterexample :
    needsDelegation "develop" = true ∧
    containsAny categoryUnionKws "develop" = false ∧
    classifyTask "develop" = TaskCategory.general := by
  refine ⟨by decide, by decide, by decide⟩

/-- C1, amended: the gate fires iff the text contains a keyword of its own
fixed ten-keyword delegation list; that list is neither a subset nor a
superset of the union of the category keyword sets ("develop" is gate-only,
"study" is category-only), so gate-true does not imply a non-general
category; still, every text containing no keyword from either list
classifies as `general` and is not delegated. -/
theorem c1_gate_consistency :
    (∀ text, needsDelegation text = true ↔ containsAny delegation_keywords text = true) ∧
    ("develop" ∈ delegation_keywords ∧ ∀ kw ∈ categoryUnionKws, inLower kw "develop" = false) ∧
    ("study" ∈ categoryUnionKws ∧ needsDelegation "study" = false ∧
      classifyTask "study" = TaskCategory.analysis) ∧
    (∀ text, containsAny delegation_keywords text = false →
      containsAny categoryUnionKws text = false →
      classifyTask text = TaskCategory.general ∧ needsDelegation text = false) := by
  refine ⟨fun text => Iff.rfl, ⟨by decide, by decide⟩, ⟨by decide, by decide, by decide⟩, ?_⟩
  intro text h1 h2
  rw [categoryUnionKws, containsAny_append, containsAny_append, containsAny_append,
    containsAny_append] at h2
  simp only [Bool.or_eq_false_iff] at h2
  obtain ⟨⟨⟨⟨hc, ha⟩, hw⟩, hd⟩, hau⟩ := h2
  refine ⟨?_, h1⟩
  simp [classifyTask, hc, ha, hw, hd, hau]

/-- C1, witness for the amended theorem's final conjunct at the concrete
utterance "hello there". -/
theorem c1_witness :
    classifyTask "hello there" = TaskCategory.general ∧
      needsDelegation "hello there" = false :=
  c1_gate_consistency.2.2.2 "hello there" (by decide) (by decide)

/-- A concrete dispatch request used to instantiate dispatch counterexamples. -/
def sampleReq : TaskRequest :=
  { task_id := "task_1", task_type := "creation", description := "build a logo" }

/-- The default Magentic-UI base URL of the source. -/
def defaultMagenticUrl : String := "http://magentic-ui:8081"

/-- C2, counterexample: the claim that a connectivity exception or a non-2xx
response yields a `failed` task is false at concrete inputs: on a raised
connection error and on a 503 response, `_direct_communication` returns
status "accepted" (the queued-fallback branch), and even on a 200 response
the stored result is a synthesized message, not the response body. -/
theorem c2_counterexample :
    (directCommunication defaultMagenticUrl sampleReq (.exn "connection refused")).status
        = "accepted" ∧
    (directCommunication defaultMagenticUrl sampleReq (.resp 503 "")).status = "accepted" ∧
    (directCommunication defaultMagenticUrl sampleReq (.resp 200 "OK")).result ≠ some "OK" ∧
    ("accepted" : String) ≠ "failed" := by
  refine ⟨rfl, rfl, by decide, by decide⟩

/-- C2, amended: `_direct_communication` returns status "accepted" for every
HTTP outcome (200 gives an "assigned" result text, everything else -- non-200
status or connectivity exception -- gives a "queued" fallback result text,
never the raw response body); `delegate_task_fast` returns "accepted" exactly
when its health check passes (a response with status below 500) and "queued"
otherwise (status 500 or above, or a connectivity exception); neither path
produces a `failed` task for a transport fault. -/
theorem c2_status_policy :
    (∀ url req o, (directCommunication url req o).status = "accepted") ∧
    (∀ s req o, ((delegateTaskFast s req o).2).status
        = (if fastHealthCheck o then "accepted" else "queued")) ∧
    (∀ s req o, fastHealthCheck o = false → ((delegateTaskFast s req o).2).status = "queued") := by
  refine ⟨?_, ?_, ?_⟩
  · intro url req o
    cases o with
    | resp st body =>
      by_cases h : st = 200
      · simp [directCommunication, h]
      · simp [directCommunication, h, queuedFallback]
    | exn m => rfl
  · intro s req o
    rw [delegateTaskFast]
    split <;> rfl
  · intro s req o h
    rw [delegateTaskFast]
    rw [if_neg (by simp [h])]

/-- C2, witness for the amended theorem's final conjunct at a concrete
timed-out dispatch. -/
theorem c2_witness :
    ((delegateTaskFast {} sampleReq (.exn "timeout")).2).status = "queued" :=
  c2_status_policy.2.2 {} sampleReq (.exn "timeout") (by decide)

/-- The category keyword sets of `_classify_task` in their source order. -/
def categoryOrder : List (TaskCategory × List String) :=
  [(.creation, creationKws), (.analysis, analysisKws), (.writing, writingKws),
   (.design, designKws), (.automation, automationKws)]

/-- The category keyword sets of `classify_task_type` in their source order. -/
def categoryOrderMI : List (TaskCategory × List String) :=
  [(.creation, creationKws), (.analysis, analysisKwsMI), (.writing, writingKws),
   (.design, designKws), (.automation, automationKws)]

/-- First category of the ordered list whose keyword set matches the text,
with `general` as the fallback. -/
def firstMatching (text : String) : List (TaskCategory × List String) → TaskCategory
  | [] => .general
  | (cat, kws) :: rest => if containsAny kws text then cat else firstMatching text rest

/-- C3: both substring classifiers test the category keyword sets in the
fixed order creation, analysis, writing, design, automation and return the
first matching category (`general` as fallback), and every text whose
lower-casing contains "create" classifies as `creation` under both. -/
theorem c3_classifier_order :
    (∀ text, classifyTask text = firstMatching text categoryOrder) ∧
    (∀ text, classifyTaskType text = firstMatching text categoryOrderMI) ∧
    (∀ text, inLower "create" text = true →
      classifyTask text = TaskCategory.creation ∧
      classifyTaskType text = TaskCategory.creation) := by
  refine ⟨fun text => rfl, fun text => rfl, ?_⟩
  intro text h
  have hc : containsAny creationKws text = true := containsAny_of_mem (by decide) h
  constructor
  · rw [classifyTask, if_pos (by simp [hc])]
  · rw [classifyTaskType, if_pos (by simp [hc])]

/-- C3, witness at the mixed-case utterance of the spec scenario. -/
theorem c3_witness :
    classifyTask "CREATE a logo" = TaskCategory.creation ∧
      classifyTaskType "CREATE a logo" = TaskCategory.creation :=
  c3_classifier_order.2.2 "CREATE a logo" (by decide)

/-- C4: `delegate_task` is total over every HTTP outcome, including timeouts
and raised connectivity exceptions (modelled by the `exn` outcome), and
immediately after it returns, `get_task_status` on the request's identifier
returns exactly the task response it produced. -/
theorem c4_dispatch_ledger :
    ∀ url s req o,
      getTaskStatus (delegateTask url s req o).1 req.task_id
        = some (delegateTask url s req o).2 := by
  intro url s req o
  simp [getTaskStatus, delegateTask, List.lookup]

theorem strData_append (a b : String) : (a ++ b).data = a.data ++ b.data := rfl

/-- C5: when the utterance contains a delegation keyword and the outbound
call returns any HTTP response, the turn handler replies with
`delegated = true` and the reply text contains the generated identifier
`task_<n>` (the clock reading rendered in decimal after the literal
"task_"); when the utterance contains no delegation keyword, the handler
replies `delegated = false` and leaves the ledger untouched; the two spec
scenarios are instances: "Analyze our Q3 sales report" passes the gate, and
the reply to "What time is it?" mentions no `task_` identifier. -/
theorem c5_handle_turn :
    (∀ s msg st body t, needsDelegation msg = true →
      (processTextMessage s msg (.resp st body) t).2.needs_delegation = true ∧
      hasSub (mkMainTaskId t).data
        ((processTextMessage s msg (.resp st body) t).2.content).data = true) ∧
    (∀ s msg o t, needsDelegation msg = false →
      (processTextMessage s msg o t).2.needs_delegation = false ∧
      (processTextMessage s msg o t).1 = s) ∧
    needsDelegation "Analyze our Q3 sales report" = true ∧
    (∀ s o t, (processTextMessage s "What time is it?" o t).2.needs_delegation = false ∧
      hasSub "task_".data
        ((processTextMessage s "What time is it?" o t).2.content).data = false) := by
  refine ⟨?_, ?_, by decide, ?_⟩
  · intro s msg st body t h
    rw [processTextMessage, if_pos h]
    refine ⟨rfl, ?_⟩
    show hasSub (mkMainTaskId t).data
      (("I've assigned '" ++ msg ++ "' to your AutoGen team. Task ID: " ++ mkMainTaskId t).data)
      = true
    rw [strData_append]
    exact hasSub_append_left _ (hasSub_refl _)
  · intro s msg o t h
    rw [processTextMessage, if_neg (by simp [h])]
    exact ⟨rfl, rfl⟩
  · intro s o t
    rw [processTextMessage, if_neg (by simp [(by decide : needsDelegation "What time is it?" = false)])]
    refine ⟨rfl, ?_⟩
    show hasSub "task_".data
      (("Hello! You said: " ++ "What time is it?" ++ ". How can I help you today?" : String)).data
      = false
    decide

/-- C5, witness: the analysis scenario at a concrete state, response and
clock reading. -/
theorem c5_witness :
    (processTextMessage {} "Analyze our Q3 sales report" (.resp 200 "ok") 42).2.needs_delegation
        = true ∧
    hasSub (mkMainTaskId 42).data
      ((processTextMessage {} "Analyze our Q3 sales report" (.resp 200 "ok") 42).2.content).data
        = true :=
  c5_handle_turn.1 {} "Analyze our Q3 sales report" 200 "ok" 42 (by decide)

/-- C6: `determine_task_priority` is total with the high-keyword test taking
precedence (as the source's if/elif chain does): a high keyword forces
`high`, a low keyword with no high keyword gives `low`, no keyword of either
set gives `normal`; the three spec examples evaluate as stated; and the
priority is computed from the text alone, independently of the category
(texts of different categories share a priority, texts of one category take
different priorities). -/
theorem c6_priority :
    (∀ text, containsAny highKws text = true → determineTaskPriority text = TaskPriority.high) ∧
    (∀ text, containsAny highKws text = false → containsAny lowKws text = true →
      determineTaskPriority text = TaskPriority.low) ∧
    (∀ text, containsAny highKws text = false → containsAny lowKws text = false →
      determineTaskPriority text = TaskPriority.normal) ∧
    determineTaskPriority "do this ASAP" = TaskPriority.high ∧
    determineTaskPriority "whenever you get a chance, eventually" = TaskPriority.low ∧
    determineTaskPriority "please help" = TaskPriority.normal ∧
    (classifyTask "create a logo" = classifyTask "urgent create a logo" ∧
      determineTaskPriority "create a logo" ≠ determineTaskPriority "urgent create a logo") ∧
    (classifyTask "create a logo" ≠ classifyTask "analyze the data" ∧
      determineTaskPriority "create a logo" = determineTaskPriority "analyze the data") := by
  refine ⟨?_, ?_, ?_, by decide, by decide, by decide, by decide, by decide⟩
  · intro text h; rw [determineTaskPriority, if_pos h]
  · intro text h1 h2
    rw [determineTaskPriority, if_neg (by simp [h1]), if_pos h2]
  · intro text h1 h2
    rw [determineTaskPriority, if_neg (by simp [h1]), if_neg (by simp [h2])]

/-- C6, witness for the keyword implications at concrete utterances. -/
theorem c6_witness :
    determineTaskPriority "urgent" = TaskPriority.high ∧
      determineTaskPriority "sometime" = TaskPriority.low :=
  ⟨c6_priority.1 "urgent" (by decide),
   c6_priority.2.1 "sometime" (by decide) (by decide)⟩

/-- C7, counterexample: the claim fails on the `main.py` variant
(`delegate_to_autogen`, lines 158-166), whose identifiers are derived from
the clock reading alone with no sequence counter: two dispatches that
observe the same clock reading (7 here; `datetime.now().timestamp()` gives
no freshness guarantee) generate the same identifier, so the run's id list
is not duplicate-free. -/
theorem c7_counterexample : ¬ (mainRunIds [7, 7]).Nodup := by
  decide

/-- C7, amended: the `SimpleWorkingDelegationProcessor` identifiers
(`task_<count>_<time>`) combine the strictly-increasing dispatch counter
with the clock reading, and every run generates pairwise-distinct ids
whatever clock readings occur, since ids with different counters always
differ; the `main.py` identifiers (`task_<time>`) carry no counter and are
distinct only for distinct clock readings. -/
theorem c7_task_id_uniqueness :
    (∀ k ts, ((simpleRun (k, []) ts).2).Nodup) ∧
    (∀ c₁ c₂ t₁ t₂, c₁ ≠ c₂ → mkSimpleTaskId c₁ t₁ ≠ mkSimpleTaskId c₂ t₂) ∧
    (∀ t₁ t₂, t₁ ≠ t₂ → mkMainTaskId t₁ ≠ mkMainTaskId t₂) := by
  refine ⟨?_, ?_, ?_⟩
  · intro k ts
    exact (simpleRun_nodup_aux ts k [] List.nodup_nil (by intro s hs; cases hs)).1
  · intro c₁ c₂ t₁ t₂ h heq
    exact h (mkSimpleTaskId_counter_inj heq)
  · intro t₁ t₂ h heq
    exact h (mkMainTaskId_inj heq)

/-- C7, witness for the injectivity conjuncts at concrete counters and
clock readings. -/
theorem c7_witness :
    mkSimpleTaskId 1 5 ≠ mkSimpleTaskId 2 5 ∧ mkMainTaskId 3 ≠ mkMainTaskId 4 :=
  ⟨c7_task_id_uniqueness.2.1 1 2 5 5 (by decide),
   c7_task_id_uniqueness.2.2 3 4 (by decide)⟩

/-- C8, counterexample: the turn handler has no empty-input short-circuit and
returns no single fixed clarification reply: the empty utterance and the
one-space utterance -- both whitespace-only -- produce different reply texts,
because the generic greeting embeds the utterance verbatim. -/
theorem c8_counterexample :
    (processTextMessage {} "" (.resp 200 "") 0).2.content ≠
      (processTextMessage {} " " (.resp 200 "") 0).2.content := by
  decide

/-- C8, amended: an empty or whitespace-only utterance is not specially
short-circuited; the gate still runs on it and evaluates false (such text
contains no delegation keyword), so the handler returns the non-delegated
greeting embedding the utterance, creates no task (the ledger is unchanged)
and never invokes the dispatcher. -/
theorem c8_empty_input :
    ∀ s msg o t, (∀ c ∈ msg.data, c.isWhitespace = true) →
      needsDelegation msg = false ∧
      (processTextMessage s msg o t).1 = s ∧
      (processTextMessage s msg o t).2.needs_delegation = false ∧
      (processTextMessage s msg o t).2.content
        = "Hello! You said: " ++ msg ++ ". How can I help you today?" := by
  intro s msg o t hw
  have hg : needsDelegation msg = false :=
    containsAny_eq_false_of_ws delegation_keywords hw (by decide)
  rw [processTextMessage, if_neg (by simp [hg])]
  exact ⟨hg, rfl, rfl, rfl⟩

/-- C8, witness for the amended theorem at the one-space utterance. -/
theorem c8_witness :
    needsDelegation " " = false ∧
    (processTextMessage {} " " (.resp 200 "") 0).1 = ({} : SimpleBackendState) ∧
    (processTextMessage {} " " (.resp 200 "") 0).2.needs_delegation = false ∧
    (processTextMessage {} " " (.resp 200 "") 0).2.content
      = "Hello! You said: " ++ " " ++ ". How can I help you today?" :=
  c8_empty_input {} " " (.resp 200 "") 0 (by decide)

/-- The `pong` reply of the WebSocket ping branch (main.py line 293),
reduced to its type tag. -/
def pongReply : WsResult := { rtype := "pong", content := "" }

/-- C9: an inbound WebSocket turn whose type is "ping" is answered with a
"pong" reply while the backend state (hence the task ledger) is unchanged,
and the core pipeline is not invoked: the step's outcome is the same
whatever function the core is. -/
theorem c9_ping :
    ∀ {St : Type} (core core' : String → Bool → St → St × WsResult) (s : St) (d : WsData),
      d.msgType = "ping" →
      websocketStep core s d = (s, pongReply) ∧
      websocketStep core s d = websocketStep core' s d := by
  intro St core core' s d h
  cases d with
  | mk mt ct =>
    simp only at h
    subst h
    exact ⟨rfl, rfl⟩

/-- C9, witness: a concrete ping turn against a core that would mutate a
`Nat` state, and a different core. -/
theorem c9_witness :
    websocketStep (fun _ _ (s : Nat) => (s + 1, { rtype := "t", content := "x" })) 0
        { msgType := "ping", content := "hi" } = (0, pongReply) ∧
    websocketStep (fun _ _ (s : Nat) => (s + 1, { rtype := "t", content := "x" })) 0
        { msgType := "ping", content := "hi" }
      = websocketStep (fun _ _ (s : Nat) => (s + 2, { rtype := "u", content := "y" })) 0
        { msgType := "ping", content := "hi" } :=
  c9_ping _ _ 0 { msgType := "ping", content := "hi" } rfl

/-- The union of the keyword sets of `classify_task_fast`. -/
def fastUnionKws : List String :=
  fastCreationKws ++ fastAnalysisKws ++ fastWritingKws ++ fastAutomationKws

theorem inLower_of_word_mem {text kw : String} (h : kw.data ∈ wordsOf text) :
    inLower kw text = true :=
  hasSub_of_mem_splitWs h

theorem anyCommon_eq_false {text : String} {kws : List String}
    (h : containsAny kws text = false) : anyCommon (wordsOf text) kws = false := by
  by_contra hc
  rw [Bool.not_eq_false, anyCommon, List.any_eq_true] at hc
  rcases hc with ⟨kw, hkw, hcont⟩
  have hmem : kw.data ∈ wordsOf text := by simpa using hcont
  have hin := inLower_of_word_mem hmem
  rw [containsAny, List.any_eq_false] at h
  exact absurd hin (h kw hkw)

/-- C10, counterexample: the two classifiers disagree at the concrete text
"design a poster": the substring classifier has a design category and
returns `design`, while `classify_task_fast` has no design category and its
creation keyword set contains "design", so it returns `creation`. -/
theorem c10_counterexample :
    classifyTask "design a poster" = TaskCategory.design ∧
    classifyTaskFast "design a poster" = TaskCategory.creation ∧
    TaskCategory.design ≠ TaskCategory.creation := by
  refine ⟨by decide, by decide, by decide⟩

/-- C10, amended: the two classifiers are not equivalent (they differ on
design-keyword texts and on texts matching keywords only as proper
substrings), but they agree on two families: every text containing one of
the shared creation keywords create/generate/make/build as a whole
whitespace-delimited word classifies as `creation` under both, and every
text containing no keyword of either classifier as a substring classifies
as `general` under both. -/
theorem c10_variant_agreement :
    (∀ text kw, kw ∈ creationKws → kw.data ∈ wordsOf text →
      classifyTask text = TaskCategory.creation ∧
      classifyTaskFast text = TaskCategory.creation) ∧
    (∀ text, containsAny (categoryUnionKws ++ fastUnionKws) text = false →
      classifyTask text = TaskCategory.general ∧
      classifyTaskFast text = TaskCategory.general) := by
  constructor
  · intro text kw hkw hword
    have hin : inLower kw text = true := inLower_of_word_mem hword
    have hc : containsAny creationKws text = true := containsAny_of_mem hkw hin
    have hkwFast : kw ∈ fastCreationKws := by
      have hsub : ∀ k ∈ creationKws, k ∈ fastCreationKws := by decide
      exact hsub kw hkw
    have hfast : anyCommon (wordsOf text) fastCreationKws = true := by
      rw [anyCommon, List.any_eq_true]
      exact ⟨kw, hkwFast, by simpa using hword⟩
    constructor
    · rw [classifyTask, if_pos hc]
    · rw [classifyTaskFast]
      simp only [hfast, if_true]
  · intro text h
    rw [containsAny_append] at h
    simp only [Bool.or_eq_false_iff] at h
    obtain ⟨hcat, hfastU⟩ := h
    rw [categoryUnionKws, containsAny_append, containsAny_append, containsAny_append,
      containsAny_append] at hcat
    simp only [Bool.or_eq_false_iff] at hcat
    obtain ⟨⟨⟨⟨hc, ha⟩, hw⟩, hd⟩, hau⟩ := hcat
    rw [fastUnionKws, containsAny_append, containsAny_append, containsAny_append] at hfastU
    simp only [Bool.or_eq_false_iff] at hfastU
    obtain ⟨⟨⟨hfc, hfa⟩, hfw⟩, hfau⟩ := hfastU
    constructor
    · simp [classifyTask, hc, ha, hw, hd, hau]
    · simp [classifyTaskFast, anyCommon_eq_false hfc, anyCommon_eq_false hfa,
        anyCommon_eq_false hfw, anyCommon_eq_false hfau]

/-- C10, witness for the amended theorem's agreement conjuncts at concrete
texts. -/
theorem c10_witness :
    (classifyTask "create a logo" = TaskCategory.creation ∧
      classifyTaskFast "create a logo" = TaskCategory.creation) ∧
    (classifyTask "hello there" = TaskCategory.general ∧
      classifyTaskFast "hello there" = TaskCategory.general) :=
  ⟨c10_variant_agreement.1 "create a logo" "create" (by decide) (by decide),
   c10_variant_agreement.2 "hello there" (by decide)⟩

end VoiceBackend
